import Mathlib

/-!
Verification development for the iOS target-resolution and configuration
module (tooling/cli/src/mobile/ios/mod.rs).

The Rust module is shallowly embedded below.  External collaborators that
the module only calls (device enumeration, the fuzzy matcher of the
sublime_fuzzy crate, the interactive prompt, the simulator start command,
keychain construction, path relativization) are passed in as explicit
parameters; their results are ordinary values, so every embedded function
is executable.  Effects are made explicit: fallible calls become Except,
environment variables become Option String arguments, the detached
simulator start is recorded in the returned list of started simulators,
and the log warnings of the development-team resolution are returned as a
value.
-/

namespace TauriIos

/-- A connected physical device, as produced by device enumeration
(contract of cargo_mobile2 device listing: an opaque id and a display
name are all the resolver logic reads). -/
structure Device where
  id : String
  name : String
deriving DecidableEq

/-- A simulator candidate: id, display name, and whether it is already
running (the connectivity/bootable state of the spec). -/
structure Simulator where
  id : String
  name : String
  running : Bool
deriving DecidableEq

/-- The resolved deployment target of device_prompt: either a physical
device, or a simulator converted into a device (Rust: simulator.into()). -/
inductive ResolvedDevice where
  | dev (d : Device)
  | sim (s : Simulator)
deriving DecidableEq

/-- Embedding of Rust Iterator::max_by_key over a list of candidates
paired with their scores: maxAux keeps the later element whenever its key
is greater or equal, which matches the documented behaviour that among
several equally-maximal elements the last one is returned. -/
def maxAux {α : Type} : (α × Nat) → List (α × Nat) → (α × Nat)
  | best, [] => best
  | best, y :: rest => maxAux (if best.2 ≤ y.2 then y else best) rest

/-- Rust max_by_key on a possibly empty iterator. -/
def max_by_key {α : Type} : List (α × Nat) → Option (α × Nat)
  | [] => none
  | x :: rest => some (maxAux x rest)

/-- The maximal score occurring in a scored candidate list (0 when the
list is empty). -/
def scoreMax {α : Type} (l : List (α × Nat)) : Nat :=
  l.foldr (fun x m => max x.2 m) 0

/-- The earliest-enumerated candidate attaining the maximal score.  Used
to state which candidate the resolver picks. -/
def firstMax {α : Type} (l : List (α × Nat)) : Option (α × Nat) :=
  l.find? (fun x => decide (scoreMax l ≤ x.2))

/-- Embedding of connected_device_prompt.  Parameters: the fuzzy score
function (sublime_fuzzy best_match mapped to 0 on no match — spec 4.1:
a non-negative integer), the fixed minimum threshold MIN_DEVICE_MATCH_SCORE
(declared outside this module; the spec only fixes that it is a constant),
the result of device enumeration, the result of the interactive prompt
(an index), and the optional target hint.  The Rust code iterates the
device list reversed, scores each name against the hint and takes
max_by_key; the unwrap on an out-of-range prompt index is modelled as an
error. -/
def connected_device_prompt (score : String → String → Nat) (thr : Nat)
    (devRes : Except String (List Device)) (promptIdx : Except String Nat)
    (target : Option String) : Except String Device :=
  match devRes with
  | .error cause => .error ("Failed to detect connected iOS devices: " ++ cause)
  | .ok deviceList =>
    match deviceList with
    | [] => .error "No connected iOS devices detected"
    | d0 :: ds =>
      match target with
      | some t =>
        match max_by_key (((d0 :: ds).reverse).map (fun d => (d, score t d.name))) with
        | none => .error "device list was empty" -- unreachable: the list is not empty
        | some (device, s) =>
          if s > thr then .ok device
          else .error ("Could not find an iOS device matching " ++ t)
      | none =>
        if (d0 :: ds).length > 1 then
          match promptIdx with
          | .error cause => .error ("Failed to prompt for iOS device: " ++ cause)
          | .ok index =>
            match (d0 :: ds).get? index with
            | some d => .ok d
            | none => .error "prompt returned an out-of-range index"
        else .ok d0

/-- Embedding of simulator_prompt, identical matching logic over the
simulator list (the single-candidate case takes the head directly, as the
Rust code calls next on the iterator). -/
def simulator_prompt (score : String → String → Nat) (thr : Nat)
    (simRes : Except String (List Simulator)) (promptIdx : Except String Nat)
    (target : Option String) : Except String Simulator :=
  match simRes with
  | .error cause => .error ("Failed to detect connected iOS Simulator devices: " ++ cause)
  | .ok simulatorList =>
    match simulatorList with
    | [] => .error "No available iOS Simulator detected"
    | s0 :: ss =>
      match target with
      | some t =>
        match max_by_key (((s0 :: ss).reverse).map (fun d => (d, score t d.name))) with
        | none => .error "simulator list was empty" -- unreachable: the list is not empty
        | some (device, s) =>
          if s > thr then .ok device
          else .error ("Could not find an iOS Simulator matching " ++ t)
      | none =>
        if (s0 :: ss).length > 1 then
          match promptIdx with
          | .error cause => .error ("Failed to prompt for iOS Simulator device: " ++ cause)
          | .ok index =>
            match (s0 :: ss).get? index with
            | some d => .ok d
            | none => .error "prompt returned an out-of-range index"
        else .ok s0

/-- The simulator branch of device_prompt: pick a simulator, start it
detached (the start attempt is recorded in the second component), and
surface a start failure with the question-mark operator. -/
def simulator_fallback (score : String → String → Nat) (thr : Nat)
    (simRes : Except String (List Simulator)) (simPromptIdx : Except String Nat)
    (start : Simulator → Except String Unit)
    (target : Option String) : Except String ResolvedDevice × List Simulator :=
  match simulator_prompt score thr simRes simPromptIdx target with
  | .error e => (.error e, [])
  | .ok s =>
    match start s with
    | .error e => (.error e, [s])
    | .ok _ => (.ok (.sim s), [s])

/-- Embedding of device_prompt: if connected_device_prompt returns Ok the
device is used; on ANY error of connected_device_prompt the code takes the
simulator branch. -/
def device_prompt (score : String → String → Nat) (thr : Nat)
    (devRes : Except String (List Device)) (devPromptIdx : Except String Nat)
    (simRes : Except String (List Simulator)) (simPromptIdx : Except String Nat)
    (start : Simulator → Except String Unit)
    (target : Option String) : Except String ResolvedDevice × List Simulator :=
  match connected_device_prompt score thr devRes devPromptIdx target with
  | .ok d => (.ok (.dev d), [])
  | .error _ => simulator_fallback score thr simRes simPromptIdx start target

/-- A locally discovered signing identity (cargo_mobile2
find_development_teams contract: a name and an id). -/
structure DevTeam where
  name : String
  id : String
deriving DecidableEq

/-- The user-facing warning emitted by the development-team fallback of
get_config, as a value.  multipleCertificates carries the formatted
enumeration of the available certificates exactly as the log line does. -/
inductive TeamWarning where
  | noCertificates
  | multipleCertificates (available : String)
deriving DecidableEq

/-- Formatting of the available certificates in the get_config warning:
name (ID: id), joined with a comma. -/
def formatTeams (teams : List DevTeam) : String :=
  String.intercalate ", " (teams.map (fun t => t.name ++ " (ID: " ++ t.id ++ ")"))

/-- Embedding of the development_team field computation of get_config:
the environment variable APPLE_DEVELOPMENT_TEAM, or else the
bundle - iOS - developmentTeam config value, or else the locally
discovered teams — auto-selecting the id of a unique team, and warning
(with the team left unset) when there are zero or several.  The or_else
chain is lazy, so a present earlier source short-circuits: the result is
then independent of the later sources and no warning is produced. -/
def resolve_development_team (envTeam : Option String) (configTeam : Option String)
    (teams : List DevTeam) : Option String × Option TeamWarning :=
  match envTeam with
  | some team => (some team, none)
  | none =>
    match configTeam with
    | some team => (some team, none)
    | none =>
      match teams with
      | [] => (none, some TeamWarning.noCertificates)
      | [team] => (some team.id, none)
      | _ => (none, some (TeamWarning.multipleCertificates (formatTeams teams)))

/-- Splitting a character list at every occurrence of a separator
character; the executable core of path splitting (the library splitter
is equivalent but is defined by well-founded recursion). -/
def splitChars (c : Char) : List Char → List (List Char)
  | [] => [[]]
  | x :: xs =>
    let r := splitChars c xs
    if x = c then [] :: r
    else
      match r with
      | [] => [[x]]
      | y :: ys => (x :: y) :: ys

/-- Splitting a string at every occurrence of a separator character. -/
def splitOnChar (c : Char) (s : String) : List String :=
  (splitChars c s.data).map (fun l => { data := l })

/-- Embedding of Rust Path::file_name on a path given as a string: the
last component, skipping empty components and single dots, and undefined
when the path ends in a parent-directory component. -/
def fileNameOf (p : String) : Option String :=
  let comps := (splitOnChar '/' p).filter (fun c => (c != "") && (c != "."))
  match comps.getLast? with
  | some c => if c = ".." then none else some c
  | none => none

/-- Embedding of the Rust file_stem/extension split of a file name: no
extension when the name holds no dot, or when it begins with a dot and
holds no further dot; otherwise the name splits at the final dot. -/
def splitExtParts (name : String) : String × Option String :=
  match splitOnChar '.' name with
  | [] => (name, none)
  | [_] => (name, none)
  | ["", _] => (name, none)
  | parts => (String.intercalate "." parts.dropLast, some (parts.getLast?.getD ""))

/-- Rust Path::extension of a path string. -/
def pathExtension (p : String) : Option String :=
  (fileNameOf p).bind (fun n => (splitExtParts n).2)

/-- Rust Path::file_stem of a path string. -/
def pathFileStem (p : String) : Option String :=
  (fileNameOf p).map (fun n => (splitExtParts n).1)

/-- The extension as the Rust code reads it: extension().unwrap_or_default(),
an empty string standing for an absent extension. -/
def extOrEmpty (p : String) : String := (pathExtension p).getD ""

/-- The file stem with the unwrap of the Rust code modelled as a default
(the framework branch only reaches it when a file name exists). -/
def stemOrEmpty (p : String) : String := (pathFileStem p).getD ""

/-- Rust Path::join: an absolute right operand replaces the base. -/
def joinPath (base p : String) : String :=
  if p.startsWith "/" then p else base ++ "/" ++ p

/-- One step of the framework classification loop of get_config: an
empty extension pushes the reference verbatim onto the link list, the
framework extension pushes the file stem onto the link list, and any
other extension pushes the path — joined to the tauri directory and
relativized against the generated project directory — onto the vendor
list.  The relativize collaborator (cargo_mobile2 relativize_path) is a
parameter. -/
def classify_framework (tauriDir projectDir : String)
    (relativize : String → String → String)
    (acc : List String × List String) (framework : String) :
    List String × List String :=
  let ext := extOrEmpty framework
  if ext = "" then (acc.1 ++ [framework], acc.2)
  else if ext = "framework" then (acc.1 ++ [stemOrEmpty framework], acc.2)
  else (acc.1, acc.2 ++ [relativize (joinPath tauriDir framework) projectDir])

/-- The framework classification loop of get_config over the configured
framework references, producing (frameworks to link, vendor frameworks). -/
def classify_frameworks (tauriDir projectDir : String)
    (relativize : String → String → String)
    (frameworks : List String) : List String × List String :=
  frameworks.foldl (classify_framework tauriDir projectDir relativize) ([], [])

/-- A plist value; the dictionary constructor keeps the insertion order
of its entries, as the plist crate dictionary does. -/
inductive Value where
  | dictionary (entries : List (String × Value))
  | string (s : String)
  | integer (n : Int)
  | boolean (b : Bool)

/-- Insertion into an ordered dictionary, plist-crate style: an existing
key keeps its position and gets the new value, a new key is appended. -/
def dictInsert : List (String × Value) → String → Value → List (String × Value)
  | [], key, value => [(key, value)]
  | (k, v) :: rest, key, value =>
    if k = key then (k, value) :: rest
    else (k, v) :: dictInsert rest key value

/-- The for-loop of merge_plist inserting every entry of a loaded source
dictionary into the destination dictionary, in source order. -/
def foldInserts (d sd : List (String × Value)) : List (String × Value) :=
  sd.foldl (fun acc kv => dictInsert acc kv.1 kv.2) d

/-- The body of the merge loop for one loaded source: when the
accumulator is a dictionary and the source converts into a dictionary,
every source entry is inserted; otherwise the accumulator is returned
unchanged (both conversions are silently skipped in the Rust code). -/
def mergeOne (destV srcV : Value) : Value :=
  match destV with
  | .dictionary d =>
    match srcV with
    | .dictionary sd => .dictionary (foldInserts d sd)
    | _ => .dictionary d
  | other => other

/-- The source loop of merge_plist.  A source is the result of loading a
PlistKind: none models a load failure (silently skipped), some a loaded
value.  The accumulator starts empty; the first loaded source forces the
destination load (destLoad), whose failure propagates.  The final
accumulator is returned: none means the destination was never loaded nor
written, some c means the file is rewritten with content c. -/
def merge_sources : List (Option Value) → Except String Value → Option Value →
    Except String (Option Value)
  | [], _, acc => .ok acc
  | s :: rest, destLoad, acc =>
    match s with
    | none => merge_sources rest destLoad acc
    | some srcPlist =>
      let accE : Except String Value :=
        match acc with
        | none => destLoad
        | some d => .ok d
      match accE with
      | .error e => .error e
      | .ok destV => merge_sources rest destLoad (some (mergeOne destV srcPlist))

/-- Embedding of merge_plist: the sources are the load results of the
given PlistKinds in order, destLoad is the load result of the destination
file.  The returned value is none when the destination file is left
untouched (never read, never written) and some c when it is rewritten in
XML form with content c. -/
def merge_plist (src : List (Option Value)) (destLoad : Except String Value) :
    Except String (Option Value) :=
  merge_sources src destLoad none

/-- Lookup of a top-level key in an ordered dictionary. -/
def plookup (key : String) : List (String × Value) → Option Value
  | [] => none
  | (k, v) :: rest => if k = key then some v else plookup key rest

/-- Lookup of a top-level key in a plist value (none on non-dictionaries). -/
def valueLookup (v : Value) (key : String) : Option Value :=
  match v with
  | .dictionary d => plookup key d
  | _ => none

/-- Folding the loaded sources into an already-loaded accumulator:
used to describe merge_sources once the destination has been loaded. -/
def foldLoaded (srcs : List (Option Value)) (c : Value) : Value :=
  srcs.foldl (fun acc s => match s with | none => acc | some w => mergeOne acc w) c

/-- Modelled from the spec: the keychain credential of the
tauri_macos_sign crate (not part of this module's source).  Per the
signing decision table it carries the signing identity name and the team
id; the team id accessor of the crate returns an optional value, mirrored
here. -/
structure Keychain where
  signing_identity : String
  team_id : Option String
deriving DecidableEq

deriving instance DecidableEq for Except

/-- Modelled from the spec: the provisioning profile artifact of the
tauri_macos_sign crate (not part of this module's source).  Its uuid
accessor is fallible, mirrored as an Except. -/
structure ProvisioningProfile where
  uuid : Except String String
deriving DecidableEq

/-- The signing mode. -/
inductive CodeSignStyle where
  | manual
  | automatic
deriving DecidableEq

/-- The resolved signing configuration produced by init_config. -/
structure IosInitConfig where
  code_sign_style : CodeSignStyle
  code_sign_identity : Option String
  team_id : Option String
  provisioning_profile_uuid : Option String
deriving DecidableEq

/-- Embedding of init_config: Manual exactly when both the keychain and
the provisioning profile are present; the identity and team fields are
read off the keychain when present, the profile uuid off the profile when
present (ok() discarding a uuid extraction failure). -/
def init_config (keychain : Option Keychain)
    (provisioning_profile : Option ProvisioningProfile) :
    Except String IosInitConfig :=
  .ok {
    code_sign_style :=
      if keychain.isSome && provisioning_profile.isSome then CodeSignStyle.manual
      else CodeSignStyle.automatic
    code_sign_identity := keychain.map (fun k => k.signing_identity)
    team_id := keychain.bind (fun k => k.team_id)
    provisioning_profile_uuid :=
      provisioning_profile.bind (fun p => p.uuid.toOption)
  }

/-- Embedding of signing_from_env.  The environment variables
IOS_CERTIFICATE, IOS_CERTIFICATE_PASSWORD and IOS_MOBILE_PROVISION are
Option parameters; the keychain constructor and the base64 profile
decoder of the tauri_macos_sign crate are fallible parameters.  The
keychain is built only when certificate and password are both set, and a
construction failure propagates before the profile is decoded. -/
def signing_from_env
    (withCert : String → String → Except String Keychain)
    (fromB64 : String → Except String ProvisioningProfile)
    (cert certPw prov : Option String) :
    Except String (Option Keychain × Option ProvisioningProfile) :=
  let keychainE : Except String (Option Keychain) :=
    match cert, certPw with
    | some c, some cp => (withCert c cp).map some
    | _, _ => .ok none
  match keychainE with
  | .error e => .error e
  | .ok keychain =>
    let profileE : Except String (Option ProvisioningProfile) :=
      match prov with
      | some pstr => (fromB64 pstr).map some
      | none => .ok none
    match profileE with
    | .error e => .error e
    | .ok profile => .ok (keychain, profile)

/-- The profile half of signing_from_env on its own, used to state that
the profile is decoded independently of the keychain outcome. -/
def profile_from_env (fromB64 : String → Except String ProvisioningProfile)
    (prov : Option String) : Except String (Option ProvisioningProfile) :=
  match prov with
  | some pstr => (fromB64 pstr).map some
  | none => .ok none

theorem scoreMax_cons {α : Type} (x : α × Nat) (l : List (α × Nat)) :
    scoreMax (x :: l) = max x.2 (scoreMax l) := rfl

theorem scoreMax_append {α : Type} (l : List (α × Nat)) (x : α × Nat) :
    scoreMax (l ++ [x]) = max (scoreMax l) x.2 := by
  induction l with
  | nil => exact max_comm x.2 0
  | cons y l ih =>
      show max y.2 (scoreMax (l ++ [x])) = max (max y.2 (scoreMax l)) x.2
      rw [ih]
      exact (max_assoc y.2 (scoreMax l) x.2).symm

theorem scoreMax_reverse {α : Type} (l : List (α × Nat)) :
    scoreMax l.reverse = scoreMax l := by
  induction l with
  | nil => rfl
  | cons y l ih =>
      rw [List.reverse_cons, scoreMax_append, ih, scoreMax_cons]
      exact max_comm _ _

theorem le_scoreMax {α : Type} {l : List (α × Nat)} {x : α × Nat} (h : x ∈ l) :
    x.2 ≤ scoreMax l := by
  induction l with
  | nil => cases h
  | cons y l ih =>
      rcases List.mem_cons.mp h with h1 | h2
      · subst h1; exact le_max_left _ _
      · exact le_trans (ih h2) (le_max_right _ _)

theorem maxAux_spec {α : Type} :
    ∀ (l : List (α × Nat)) (b : α × Nat),
      ((b :: l).reverse).find? (fun x => decide (scoreMax (b :: l) ≤ x.2)) =
        some (maxAux b l)
  | [], b => by
      have hb : scoreMax [b] ≤ b.2 := le_of_eq (max_eq_left (Nat.zero_le _))
      simp [maxAux, List.find?, decide_eq_true hb]
  | y :: rest, b => by
      have hM : scoreMax (b :: y :: rest) =
          scoreMax ((if b.2 ≤ y.2 then y else b) :: rest) := by
        by_cases h : b.2 ≤ y.2
        · simp only [if_pos h, scoreMax_cons]
          exact max_eq_right (le_trans h (le_max_left _ _))
        · simp only [if_neg h, scoreMax_cons]
          rw [← max_assoc, max_eq_left (le_of_not_le h)]
      have ih := maxAux_spec rest (if b.2 ≤ y.2 then y else b)
      rw [hM]
      show ((b :: y :: rest).reverse).find? (fun x =>
          decide (scoreMax ((if b.2 ≤ y.2 then y else b) :: rest) ≤ x.2)) =
        some (maxAux (if b.2 ≤ y.2 then y else b) rest)
      rw [← ih]
      simp only [List.reverse_cons, List.append_assoc, List.find?_append]
      congr 1
      by_cases h : b.2 ≤ y.2
      · simp only [if_pos h]
        by_cases hy : scoreMax (y :: rest) ≤ y.2
        · simp [List.find?, decide_eq_true hy]
        · have hqb : ¬ scoreMax (y :: rest) ≤ b.2 := fun hc => hy (le_trans hc h)
          simp [List.find?, decide_eq_false hy, decide_eq_false hqb]
      · simp only [if_neg h]
        have hy : ¬ scoreMax (b :: rest) ≤ y.2 := by
          intro hc
          exact h (le_trans (le_max_left b.2 (scoreMax rest)) hc)
        simp [List.find?, decide_eq_false hy]


theorem max_by_key_reverse {α : Type} (l : List (α × Nat)) (h : l ≠ []) :
    max_by_key l.reverse = firstMax l := by
  cases hrev : l.reverse with
  | nil => exact absurd (List.reverse_eq_nil_iff.mp hrev) h
  | cons b t =>
      have h2 : (b :: t).reverse = l := by rw [← hrev, List.reverse_reverse]
      have h3 : scoreMax (b :: t) = scoreMax l := by
        rw [← hrev, scoreMax_reverse]
      show some (maxAux b t) = firstMax l
      rw [← maxAux_spec t b, h2, h3]
      rfl

theorem scoreMax_mem {α : Type} : ∀ (l : List (α × Nat)), l ≠ [] →
    ∃ x ∈ l, scoreMax l ≤ x.2
  | [], h => absurd rfl h
  | x :: rest, _ => by
      by_cases hr : rest = []
      · subst hr
        exact ⟨x, List.mem_singleton_self x, le_of_eq (max_eq_left (Nat.zero_le _))⟩
      · rcases scoreMax_mem rest hr with ⟨e, he, hle⟩
        by_cases hc : scoreMax rest ≤ x.2
        · refine ⟨x, List.mem_cons_self x rest, ?_⟩
          show max x.2 (scoreMax rest) ≤ x.2
          exact max_le le_rfl hc
        · refine ⟨e, List.mem_cons_of_mem x he, ?_⟩
          show max x.2 (scoreMax rest) ≤ e.2
          exact max_le (le_trans (le_of_not_le hc) hle) hle

theorem firstMax_isSome {α : Type} (l : List (α × Nat)) (h : l ≠ []) :
    ∃ x, firstMax l = some x := by
  cases hf : firstMax l with
  | some x => exact ⟨x, rfl⟩
  | none =>
      rcases scoreMax_mem l h with ⟨e, he, hle⟩
      exact absurd (decide_eq_true hle) (List.find?_eq_none.mp hf e he)

theorem firstMax_eq_max {α : Type} {l : List (α × Nat)} {x : α × Nat}
    (h : firstMax l = some x) : x ∈ l ∧ x.2 = scoreMax l := by
  unfold firstMax at h
  have hm : x ∈ l := List.mem_of_find?_eq_some h
  have hp' := List.find?_some h
  have hp : scoreMax l ≤ x.2 := of_decide_eq_true hp'
  exact ⟨hm, le_antisymm (le_scoreMax hm) hp⟩

theorem connected_device_prompt_hint (score : String → String → Nat) (thr : Nat)
    (pIdx : Except String Nat) (devices : List Device) (t : String)
    (hne : devices ≠ []) :
    connected_device_prompt score thr (.ok devices) pIdx (some t) =
      (match firstMax (devices.map (fun d => (d, score t d.name))) with
       | none => .error "device list was empty"
       | some (device, s) => if s > thr then .ok device
           else .error ("Could not find an iOS device matching " ++ t)) := by
  cases devices with
  | nil => exact absurd rfl hne
  | cons d0 ds =>
      show (match max_by_key (((d0 :: ds).reverse).map (fun d => (d, score t d.name))) with
        | none => Except.error "device list was empty"
        | some (device, s) =>
          if s > thr then Except.ok device
          else Except.error ("Could not find an iOS device matching " ++ t)) = _
      rw [List.map_reverse, max_by_key_reverse _ (by simp)]

theorem simulator_prompt_hint (score : String → String → Nat) (thr : Nat)
    (pIdx : Except String Nat) (sims : List Simulator) (t : String)
    (hne : sims ≠ []) :
    simulator_prompt score thr (.ok sims) pIdx (some t) =
      (match firstMax (sims.map (fun d => (d, score t d.name))) with
       | none => .error "simulator list was empty"
       | some (device, s) => if s > thr then .ok device
           else .error ("Could not find an iOS Simulator matching " ++ t)) := by
  cases sims with
  | nil => exact absurd rfl hne
  | cons s0 ss =>
      show (match max_by_key (((s0 :: ss).reverse).map (fun d => (d, score t d.name))) with
        | none => Except.error "simulator list was empty"
        | some (device, s) =>
          if s > thr then Except.ok device
          else Except.error ("Could not find an iOS Simulator matching " ++ t)) = _
      rw [List.map_reverse, max_by_key_reverse _ (by simp)]

/-- C1 (corrected): for every non-empty connected-device list and a present
hint whose maximal fuzzy score over the candidates is not strictly greater
than the threshold, connected_device_prompt fails with the no-matching-target
error — but device_prompt then DOES proceed to the simulator fallback branch.
The fallback runs on any connected-device failure, not only on an empty
enumeration, contrary to the claim. -/
theorem device_no_match_falls_back (score : String → String → Nat) (thr : Nat)
    (devPromptIdx simPromptIdx : Except String Nat)
    (simRes : Except String (List Simulator))
    (start : Simulator → Except String Unit)
    (devices : List Device) (t : String)
    (hne : devices ≠ [])
    (hmax : scoreMax (devices.map (fun d => (d, score t d.name))) ≤ thr) :
    connected_device_prompt score thr (.ok devices) devPromptIdx (some t) =
        .error ("Could not find an iOS device matching " ++ t) ∧
    device_prompt score thr (.ok devices) devPromptIdx simRes simPromptIdx start (some t) =
        simulator_fallback score thr simRes simPromptIdx start (some t) := by
  have hmap : devices.map (fun d => (d, score t d.name)) ≠ [] := by
    cases devices with
    | nil => exact absurd rfl hne
    | cons a b => simp
  rcases firstMax_isSome _ hmap with ⟨⟨xd, xs⟩, hx⟩
  have hxm := firstMax_eq_max hx
  have hxle : xs ≤ thr := le_trans (le_of_eq hxm.2) hmax
  have hconn : connected_device_prompt score thr (.ok devices) devPromptIdx (some t) =
      .error ("Could not find an iOS device matching " ++ t) := by
    rw [connected_device_prompt_hint score thr devPromptIdx devices t hne, hx]
    exact if_neg (by omega)
  refine ⟨hconn, ?_⟩
  unfold device_prompt
  rw [hconn]

/-- Witness for C1: one device named Alpha, hint Zeta at threshold 0. -/
theorem device_no_match_falls_back_witness :
    connected_device_prompt (fun t n => if n = t then 5 else 0) 0
        (.ok [⟨"d1", "Alpha"⟩]) (.ok 0) (some "Zeta") =
      .error ("Could not find an iOS device matching " ++ "Zeta") ∧
    device_prompt (fun t n => if n = t then 5 else 0) 0
        (.ok [⟨"d1", "Alpha"⟩]) (.ok 0)
        (.ok [⟨"s1", "Zeta", false⟩]) (.ok 0) (fun _ => .ok ()) (some "Zeta") =
      simulator_fallback (fun t n => if n = t then 5 else 0) 0
        (.ok [⟨"s1", "Zeta", false⟩]) (.ok 0) (fun _ => .ok ()) (some "Zeta") :=
  device_no_match_falls_back (fun t n => if n = t then 5 else 0) 0 (.ok 0) (.ok 0)
    (.ok [⟨"s1", "Zeta", false⟩]) (fun _ => .ok ()) [⟨"d1", "Alpha"⟩] "Zeta"
    (by decide) (by decide)

/-- C1 counterexample: with one connected device named Alpha, the hint Zeta
scoring zero on it (threshold 0), and an available simulator named Zeta,
device_prompt resolves to the simulator instead of failing with the
no-matching-target error: a matching failure against a non-empty device list
does fall back to simulators. -/
theorem device_no_match_fallback_cex :
    (device_prompt (fun t n => if n = t then 5 else 0) 0
        (.ok [⟨"d1", "Alpha"⟩]) (.ok 0)
        (.ok [⟨"s1", "Zeta", false⟩]) (.ok 0)
        (fun _ => .ok ()) (some "Zeta")).1 = .ok (.sim ⟨"s1", "Zeta", false⟩) ∧
    (device_prompt (fun t n => if n = t then 5 else 0) 0
        (.ok [⟨"d1", "Alpha"⟩]) (.ok 0)
        (.ok [⟨"s1", "Zeta", false⟩]) (.ok 0)
        (fun _ => .ok ()) (some "Zeta")).1 ≠
      .error ("Could not find an iOS device matching " ++ "Zeta") := by
  decide

/-- C2 (corrected): with a present hint, both the device and the simulator
matching paths select the earliest-enumerated candidate attaining the maximal
fuzzy score, provided that score is strictly greater than the threshold.  The
code iterates the list reversed and max_by_key keeps the last of equal maxima,
so ties break toward the candidate enumerated FIRST, not last as claimed. -/
theorem hint_tie_prefers_first (score : String → String → Nat) (thr : Nat)
    (devPromptIdx simPromptIdx : Except String Nat)
    (devices : List Device) (sims : List Simulator) (t : String)
    (d : Device) (sd : Nat) (s : Simulator) (ss : Nat)
    (hd : firstMax (devices.map (fun x => (x, score t x.name))) = some (d, sd))
    (hdthr : sd > thr)
    (hs : firstMax (sims.map (fun x => (x, score t x.name))) = some (s, ss))
    (hsthr : ss > thr) :
    connected_device_prompt score thr (.ok devices) devPromptIdx (some t) = .ok d ∧
    simulator_prompt score thr (.ok sims) simPromptIdx (some t) = .ok s := by
  have hdm : devices ≠ [] := by
    intro h
    rw [h] at hd
    exact Option.noConfusion hd
  have hsm : sims ≠ [] := by
    intro h
    rw [h] at hs
    exact Option.noConfusion hs
  constructor
  · rw [connected_device_prompt_hint score thr devPromptIdx devices t hdm, hd]
    exact if_pos hdthr
  · rw [simulator_prompt_hint score thr simPromptIdx sims t hsm, hs]
    exact if_pos hsthr

/-- Witness for C2: two tied candidates on each path; the first one wins. -/
theorem hint_tie_prefers_first_witness :
    connected_device_prompt (fun t n => if n = t then 5 else 0) 0
        (.ok [⟨"a", "Foo"⟩, ⟨"b", "Foo"⟩]) (.ok 0) (some "Foo") = .ok ⟨"a", "Foo"⟩ ∧
    simulator_prompt (fun t n => if n = t then 5 else 0) 0
        (.ok [⟨"sa", "Foo", false⟩, ⟨"sb", "Foo", false⟩]) (.ok 0) (some "Foo") =
      .ok ⟨"sa", "Foo", false⟩ :=
  hint_tie_prefers_first (fun t n => if n = t then 5 else 0) 0 (.ok 0) (.ok 0)
    [⟨"a", "Foo"⟩, ⟨"b", "Foo"⟩] [⟨"sa", "Foo", false⟩, ⟨"sb", "Foo", false⟩] "Foo"
    ⟨"a", "Foo"⟩ 5 ⟨"sa", "Foo", false⟩ 5
    (by decide) (by decide) (by decide) (by decide)

/-- C2 counterexample: two devices (and two simulators) named Foo attain the
same maximal score on hint Foo, and resolution returns the candidate
enumerated first on both paths, while the claim requires the one enumerated
last; the tied candidates are distinct. -/
theorem hint_tie_prefers_last_cex :
    connected_device_prompt (fun t n => if n = t then 5 else 0) 0
        (.ok [⟨"a", "Foo"⟩, ⟨"b", "Foo"⟩]) (.ok 0) (some "Foo") = .ok ⟨"a", "Foo"⟩ ∧
    simulator_prompt (fun t n => if n = t then 5 else 0) 0
        (.ok [⟨"sa", "Foo", false⟩, ⟨"sb", "Foo", false⟩]) (.ok 0) (some "Foo") =
      .ok ⟨"sa", "Foo", false⟩ ∧
    (⟨"a", "Foo"⟩ : Device) ≠ ⟨"b", "Foo"⟩ ∧
    (⟨"sa", "Foo", false⟩ : Simulator) ≠ ⟨"sb", "Foo", false⟩ := by
  decide

/-- C8 (confirmed): whenever device_prompt selects a simulator via the
fallback path (connected-device resolution failed, the simulator prompt
succeeded) and the simulator is not already running, the simulator start is
attempted before the simulator is returned, a start failure becomes the error
of the resolution call, and a successful start returns the simulator as the
resolved target.  (The code starts the simulator unconditionally, so in
particular when it is not running.) -/
theorem fallback_simulator_started (score : String → String → Nat) (thr : Nat)
    (devRes : Except String (List Device)) (devPromptIdx simPromptIdx : Except String Nat)
    (simRes : Except String (List Simulator))
    (start : Simulator → Except String Unit)
    (target : Option String) (e : String) (s : Simulator)
    (hconn : connected_device_prompt score thr devRes devPromptIdx target = .error e)
    (hsim : simulator_prompt score thr simRes simPromptIdx target = .ok s)
    (_hrun : s.running = false) :
    (device_prompt score thr devRes devPromptIdx simRes simPromptIdx start target).2 = [s] ∧
    (∀ e2, start s = .error e2 →
      (device_prompt score thr devRes devPromptIdx simRes simPromptIdx start target).1 =
        .error e2) ∧
    (start s = .ok () →
      (device_prompt score thr devRes devPromptIdx simRes simPromptIdx start target).1 =
        .ok (.sim s)) := by
  have hfb : device_prompt score thr devRes devPromptIdx simRes simPromptIdx start target =
      simulator_fallback score thr simRes simPromptIdx start target := by
    unfold device_prompt
    rw [hconn]
  have hsf : simulator_fallback score thr simRes simPromptIdx start target =
      (match start s with
       | .error e2 => (.error e2, [s])
       | .ok _ => (.ok (.sim s), [s])) := by
    unfold simulator_fallback
    rw [hsim]
  rw [hfb, hsf]
  cases hst : start s with
  | error e2 =>
      refine ⟨rfl, ?_, ?_⟩
      · intro e3 h3
        cases h3
        rfl
      · intro h3
        exact Except.noConfusion h3
  | ok u =>
      cases u
      refine ⟨rfl, ?_, fun _ => rfl⟩
      intro e3 h3
      exact Except.noConfusion h3

/-- Witness for C8: empty device list, one not-running simulator, successful
start. -/
theorem fallback_simulator_started_witness :
    (device_prompt (fun _ _ => 0) 0 (.ok []) (.ok 0)
        (.ok [⟨"s1", "Sim", false⟩]) (.ok 0) (fun _ => .ok ()) none).2 =
      [⟨"s1", "Sim", false⟩] ∧
    (device_prompt (fun _ _ => 0) 0 (.ok []) (.ok 0)
        (.ok [⟨"s1", "Sim", false⟩]) (.ok 0) (fun _ => .ok ()) none).1 =
      .ok (.sim ⟨"s1", "Sim", false⟩) :=
  ⟨(fallback_simulator_started (fun _ _ => 0) 0 (.ok []) (.ok 0) (.ok 0)
      (.ok [⟨"s1", "Sim", false⟩]) (fun _ => .ok ()) none
      "No connected iOS devices detected" ⟨"s1", "Sim", false⟩ rfl rfl rfl).1,
   (fallback_simulator_started (fun _ _ => 0) 0 (.ok []) (.ok 0) (.ok 0)
      (.ok [⟨"s1", "Sim", false⟩]) (fun _ => .ok ()) none
      "No connected iOS devices detected" ⟨"s1", "Sim", false⟩ rfl rfl rfl).2.2 rfl⟩

theorem signing_from_env_no_keychain (wc : String → String → Except String Keychain)
    (fb : String → Except String ProvisioningProfile) :
    ∀ (cert pw prov : Option String), cert = none ∨ pw = none →
      signing_from_env wc fb cert pw prov =
        (profile_from_env fb prov).map
          (fun profile => ((none : Option Keychain), profile)) := by
  have key : ∀ (prov : Option String),
      (match profile_from_env fb prov with
       | Except.error e => Except.error e
       | Except.ok profile => Except.ok ((none : Option Keychain), profile)) =
      (profile_from_env fb prov).map
        (fun profile => ((none : Option Keychain), profile)) := by
    intro prov
    cases hq : profile_from_env fb prov <;> rfl
  intro cert pw prov hcp
  rcases hcp with h1 | h1
  · subst h1
    exact key prov
  · subst h1
    cases cert with
    | none => exact key prov
    | some c => exact key prov

/-- C9 (confirmed): signing_from_env builds a keychain only when the
certificate variable and the certificate-password variable are both set.
When exactly one of the two is set the keychain step contributes no error and
no keychain, and the whole result equals the profile decoding step alone —
the profile is decoded independently of the keychain outcome; and any result
carrying a keychain implies both variables were set. -/
theorem signing_from_env_keychain_presence
    (withCert : String → String → Except String Keychain)
    (fromB64 : String → Except String ProvisioningProfile)
    (cert certPw prov : Option String)
    (h : cert.isSome ≠ certPw.isSome) :
    signing_from_env withCert fromB64 cert certPw prov =
      (profile_from_env fromB64 prov).map
        (fun profile => ((none : Option Keychain), profile)) ∧
    (∀ c2 p2 pv2 k pp, signing_from_env withCert fromB64 c2 p2 pv2 = .ok (some k, pp) →
      c2.isSome ∧ p2.isSome) := by
  constructor
  · cases cert with
    | none => exact signing_from_env_no_keychain withCert fromB64 none certPw prov (Or.inl rfl)
    | some c =>
        cases certPw with
        | some cp => exact absurd rfl h
        | none =>
            exact signing_from_env_no_keychain withCert fromB64 (some c) none prov (Or.inr rfl)
  · intro c2 p2 pv2 k pp hs
    cases c2 with
    | none =>
        exfalso
        rw [signing_from_env_no_keychain withCert fromB64 none p2 pv2 (Or.inl rfl)] at hs
        cases hq : profile_from_env fromB64 pv2 <;> rw [hq] at hs <;>
          simp [Except.map] at hs
    | some c =>
        cases p2 with
        | some p3 => exact ⟨rfl, rfl⟩
        | none =>
            exfalso
            rw [signing_from_env_no_keychain withCert fromB64 (some c) none pv2 (Or.inr rfl)] at hs
            cases hq : profile_from_env fromB64 pv2 <;> rw [hq] at hs <;>
              simp [Except.map] at hs

/-- Witness for C9: certificate set, password unset, profile present. -/
theorem signing_from_env_keychain_presence_witness :
    signing_from_env (fun _ _ => .error "unused") (fun s => .ok ⟨.ok s⟩)
        (some "cert-data") none (some "profile-b64") =
      (profile_from_env (fun s => .ok ⟨.ok s⟩) (some "profile-b64")).map
        (fun profile => ((none : Option Keychain), profile)) :=
  (signing_from_env_keychain_presence (fun _ _ => .error "unused")
    (fun s => .ok ⟨.ok s⟩) (some "cert-data") none (some "profile-b64") (by decide)).1

/-- C3 (corrected): the init_config decision table.  Manual is chosen exactly
when the keychain credential and the provisioning artifact are both present;
with a credential the identity name is populated and the team id is the one
carried by the credential; with an artifact the provisioning uuid is populated
from the artifact whenever extraction succeeds — including in the
artifact-only row, where the claim wrongly requires no UUID; with neither, all
fields are unset. -/
theorem init_config_decision_table (k : Keychain) (p : ProvisioningProfile) :
    init_config (some k) (some p) =
      .ok ⟨.manual, some k.signing_identity, k.team_id, p.uuid.toOption⟩ ∧
    init_config (some k) none =
      .ok ⟨.automatic, some k.signing_identity, k.team_id, none⟩ ∧
    init_config none (some p) =
      .ok ⟨.automatic, none, none, p.uuid.toOption⟩ ∧
    init_config none none =
      .ok ⟨.automatic, none, none, none⟩ ∧
    (∀ kc pp c, init_config kc pp = Except.ok c →
      (c.code_sign_style = .manual ↔ kc.isSome ∧ pp.isSome)) := by
  refine ⟨rfl, rfl, rfl, rfl, ?_⟩
  intro kc pp c hc
  have hc2 := Except.ok.inj hc
  subst hc2
  cases kc <;> cases pp <;> simp [init_config]

/-- Witness for C3: the credential-only row and the mode equivalence at the
neither row. -/
theorem init_config_decision_table_witness :
    init_config (some ⟨"identity-name", some "TEAM1"⟩) none =
      .ok ⟨.automatic, some "identity-name", some "TEAM1", none⟩ ∧
    ((⟨.automatic, none, none, none⟩ : IosInitConfig).code_sign_style = .manual ↔
      (none : Option Keychain).isSome ∧ (none : Option ProvisioningProfile).isSome) :=
  ⟨(init_config_decision_table ⟨"identity-name", some "TEAM1"⟩ ⟨.ok "u"⟩).2.1,
   (init_config_decision_table ⟨"identity-name", some "TEAM1"⟩ ⟨.ok "u"⟩).2.2.2.2
     none none ⟨.automatic, none, none, none⟩ rfl⟩

/-- C3 counterexample: with no keychain and a provisioning profile whose uuid
extraction succeeds with UUID-1, init_config populates the
provisioning-profile uuid field, refuting the no-UUID clause of the
artifact-only row of the claimed table. -/
theorem init_config_artifact_only_uuid_cex :
    init_config none (some ⟨.ok "UUID-1"⟩) =
      .ok ⟨.automatic, none, none, some "UUID-1"⟩ ∧
    (some "UUID-1" : Option String) ≠ none :=
  ⟨rfl, by decide⟩

/-- C6 (confirmed): the development-team resolution of get_config is a strict
first-present-wins chain: a present environment override is returned with no
warning regardless of the other sources; otherwise a present project-config
value is returned with no warning; otherwise a unique discovered signing
identity is auto-selected; with zero identities the team is unset and the
no-certificates warning is emitted; with two or more the team is unset and
the warning enumerating the available identities is emitted. -/
theorem development_team_precedence (configTeam : Option String) (teams : List DevTeam) :
    (∀ t, resolve_development_team (some t) configTeam teams = (some t, none)) ∧
    (∀ t, resolve_development_team none (some t) teams = (some t, none)) ∧
    (∀ one, resolve_development_team none none [one] = (some one.id, none)) ∧
    resolve_development_team none none [] = (none, some .noCertificates) ∧
    (2 ≤ teams.length → resolve_development_team none none teams =
      (none, some (.multipleCertificates (formatTeams teams)))) := by
  refine ⟨fun t => rfl, fun t => rfl, fun one => rfl, rfl, ?_⟩
  intro hlen
  cases teams with
  | nil => exact absurd hlen (by decide)
  | cons a rest =>
      cases rest with
      | nil => exact absurd hlen (by simp)
      | cons b rest2 => rfl

/-- Witness for C6: the environment override beats a present config value,
and two identities produce the enumerating warning. -/
theorem development_team_precedence_witness :
    resolve_development_team (some "ENV-TEAM") (some "CFG-TEAM") [] =
      (some "ENV-TEAM", none) ∧
    resolve_development_team none none [⟨"Cert A", "ID1"⟩, ⟨"Cert B", "ID2"⟩] =
      (none, some (.multipleCertificates
        (formatTeams [⟨"Cert A", "ID1"⟩, ⟨"Cert B", "ID2"⟩]))) :=
  ⟨(development_team_precedence (some "CFG-TEAM") []).1 "ENV-TEAM",
   (development_team_precedence none [⟨"Cert A", "ID1"⟩, ⟨"Cert B", "ID2"⟩]).2.2.2.2
     (by decide)⟩

theorem classify_foldl_mem_left (td pd : String) (rel : String → String → String) :
    ∀ (fs : List String) (acc : List String × List String) (x : String),
      x ∈ acc.1 → x ∈ (fs.foldl (classify_framework td pd rel) acc).1
  | [], _, _, h => h
  | f :: fs, acc, x, h => by
      have hstep : x ∈ (classify_framework td pd rel acc f).1 := by
        simp only [classify_framework]
        split_ifs <;> first | exact List.mem_append_left _ h | exact h
      exact classify_foldl_mem_left td pd rel fs (classify_framework td pd rel acc f) x hstep

theorem classify_foldl_mem_right (td pd : String) (rel : String → String → String) :
    ∀ (fs : List String) (acc : List String × List String) (x : String),
      x ∈ acc.2 → x ∈ (fs.foldl (classify_framework td pd rel) acc).2
  | [], _, _, h => h
  | f :: fs, acc, x, h => by
      have hstep : x ∈ (classify_framework td pd rel acc f).2 := by
        simp only [classify_framework]
        split_ifs <;> first | exact List.mem_append_left _ h | exact h
      exact classify_foldl_mem_right td pd rel fs (classify_framework td pd rel acc f) x hstep

theorem classify_foldl_adds (td pd : String) (rel : String → String → String) :
    ∀ (fs : List String) (acc : List String × List String) (f : String), f ∈ fs →
      (extOrEmpty f = "" → f ∈ (fs.foldl (classify_framework td pd rel) acc).1) ∧
      (extOrEmpty f = "framework" →
        stemOrEmpty f ∈ (fs.foldl (classify_framework td pd rel) acc).1) ∧
      (extOrEmpty f ≠ "" → extOrEmpty f ≠ "framework" →
        rel (joinPath td f) pd ∈ (fs.foldl (classify_framework td pd rel) acc).2)
  | [], _, f, h => absurd h (List.not_mem_nil f)
  | g :: fs, acc, f, h => by
      rcases List.mem_cons.mp h with h1 | h2
      · subst h1
        refine ⟨?_, ?_, ?_⟩
        · intro he
          apply classify_foldl_mem_left td pd rel fs
          simp only [classify_framework]
          rw [if_pos he]
          exact List.mem_append_right _ (List.mem_singleton_self f)
        · intro he
          apply classify_foldl_mem_left td pd rel fs
          simp only [classify_framework]
          rw [if_neg (by rw [he]; decide), if_pos he]
          exact List.mem_append_right _ (List.mem_singleton_self _)
        · intro he1 he2
          apply classify_foldl_mem_right td pd rel fs
          simp only [classify_framework]
          rw [if_neg he1, if_neg he2]
          exact List.mem_append_right _ (List.mem_singleton_self _)
      · exact classify_foldl_adds td pd rel fs (classify_framework td pd rel acc g) f h2

/-- C7 (confirmed): each configured framework reference is classified by its
path extension alone: an empty extension puts the reference verbatim on the
link list; the framework extension puts its file stem on the link list; any
other extension puts the reference — joined to the tauri directory and
relativized against the generated project directory — on the vendor list. -/
theorem classify_frameworks_by_extension (td pd : String)
    (rel : String → String → String) (fs : List String) (f : String) (h : f ∈ fs) :
    (extOrEmpty f = "" → f ∈ (classify_frameworks td pd rel fs).1) ∧
    (extOrEmpty f = "framework" →
      stemOrEmpty f ∈ (classify_frameworks td pd rel fs).1) ∧
    (extOrEmpty f ≠ "" → extOrEmpty f ≠ "framework" →
      rel (joinPath td f) pd ∈ (classify_frameworks td pd rel fs).2) :=
  classify_foldl_adds td pd rel fs ([], []) f h

/-- Witness for C7: the three spec examples Foo, Foo.framework and
libs/foo.a. -/
theorem classify_frameworks_by_extension_witness :
    "Foo" ∈ (classify_frameworks "/tauri" "/proj" (fun _ _ => "VENDORED")
      ["Foo", "Foo.framework", "libs/foo.a"]).1 ∧
    stemOrEmpty "Foo.framework" ∈ (classify_frameworks "/tauri" "/proj"
      (fun _ _ => "VENDORED") ["Foo", "Foo.framework", "libs/foo.a"]).1 ∧
    "VENDORED" ∈ (classify_frameworks "/tauri" "/proj" (fun _ _ => "VENDORED")
      ["Foo", "Foo.framework", "libs/foo.a"]).2 :=
  ⟨(classify_frameworks_by_extension "/tauri" "/proj" (fun _ _ => "VENDORED")
      ["Foo", "Foo.framework", "libs/foo.a"] "Foo" (by decide)).1 (by decide),
   (classify_frameworks_by_extension "/tauri" "/proj" (fun _ _ => "VENDORED")
      ["Foo", "Foo.framework", "libs/foo.a"] "Foo.framework" (by decide)).2.1 (by decide),
   (classify_frameworks_by_extension "/tauri" "/proj" (fun _ _ => "VENDORED")
      ["Foo", "Foo.framework", "libs/foo.a"] "libs/foo.a" (by decide)).2.2
     (by decide) (by decide)⟩

theorem plookup_dictInsert_self (l : List (String × Value)) (key : String) (v : Value) :
    plookup key (dictInsert l key v) = some v := by
  induction l with
  | nil => simp [dictInsert, plookup]
  | cons kv rest ih =>
      obtain ⟨k, w⟩ := kv
      by_cases h : k = key
      · simp [dictInsert, h, plookup]
      · simp [dictInsert, h, plookup, ih]

theorem plookup_dictInsert_other (l : List (String × Value)) (key k2 : String) (v : Value)
    (h : k2 ≠ key) : plookup k2 (dictInsert l key v) = plookup k2 l := by
  induction l with
  | nil =>
      show (if key = k2 then some v else plookup k2 []) = plookup k2 []
      rw [if_neg (fun hh => h hh.symm)]
  | cons kv rest ih =>
      obtain ⟨k, w⟩ := kv
      by_cases hk : k = key
      · subst hk
        simp only [dictInsert, if_pos rfl]
        show (if k = k2 then some v else plookup k2 rest) =
          (if k = k2 then some w else plookup k2 rest)
        rw [if_neg (fun hh => h hh.symm), if_neg (fun hh => h hh.symm)]
      · simp only [dictInsert, if_neg hk]
        show (if k = k2 then some w else plookup k2 (dictInsert rest key v)) =
          (if k = k2 then some w else plookup k2 rest)
        by_cases hk2 : k = k2
        · rw [if_pos hk2, if_pos hk2]
        · rw [if_neg hk2, if_neg hk2, ih]

theorem plookup_eq_none {l : List (String × Value)} {k : String}
    (h : k ∉ l.map Prod.fst) : plookup k l = none := by
  induction l with
  | nil => rfl
  | cons kv rest ih =>
      obtain ⟨k1, v1⟩ := kv
      simp only [List.map_cons, List.mem_cons] at h
      push_neg at h
      show (if k1 = k then some v1 else plookup k rest) = none
      rw [if_neg (fun hh => h.1 hh.symm), ih h.2]

theorem plookup_foldInserts :
    ∀ (sd d : List (String × Value)) (k : String), (sd.map Prod.fst).Nodup →
      plookup k (foldInserts d sd) =
        (match plookup k sd with
         | some v => some v
         | none => plookup k d)
  | [], d, k, _ => rfl
  | (k0, v0) :: tl, d, k, hnd => by
      have hnod := List.nodup_cons.mp hnd
      show plookup k (foldInserts (dictInsert d k0 v0) tl) = _
      rw [plookup_foldInserts tl (dictInsert d k0 v0) k hnod.2]
      by_cases hk : k0 = k
      · subst hk
        have htl : plookup k0 tl = none := plookup_eq_none hnod.1
        rw [htl]
        show plookup k0 (dictInsert d k0 v0) =
          (match plookup k0 ((k0, v0) :: tl) with
           | some v => some v
           | none => plookup k0 d)
        rw [plookup_dictInsert_self]
        show (some v0 : Option Value) =
          (match (if k0 = k0 then some v0 else plookup k0 tl) with
           | some v => some v
           | none => plookup k0 d)
        rw [if_pos rfl]
      · rw [plookup_dictInsert_other d k0 k v0 (fun hh => hk hh.symm)]
        show (match plookup k tl with
           | some v => some v
           | none => plookup k d) =
          (match (if k0 = k then some v0 else plookup k tl) with
           | some v => some v
           | none => plookup k d)
        rw [if_neg hk]

/-- C4 (confirmed): plist merge is order-sensitive and right-biased per
top-level key.  For a destination dictionary and two loadable dictionary
sources that both set key k (each with duplicate-free keys, as plist
dictionaries are), merging the sources in one order leaves the value of the
later source at k, merging them in the other order leaves the value of the
other source, and a key set by only one source keeps the value of that source
in both orders. -/
theorem merge_plist_order_sensitive
    (dE a b : List (String × Value)) (k : String) (va vb : Value)
    (hnda : (a.map Prod.fst).Nodup) (hndb : (b.map Prod.fst).Nodup)
    (hka : plookup k a = some va) (hkb : plookup k b = some vb) :
    merge_plist [some (.dictionary a), some (.dictionary b)] (.ok (.dictionary dE)) =
      .ok (some (.dictionary (foldInserts (foldInserts dE a) b))) ∧
    valueLookup (.dictionary (foldInserts (foldInserts dE a) b)) k = some vb ∧
    merge_plist [some (.dictionary b), some (.dictionary a)] (.ok (.dictionary dE)) =
      .ok (some (.dictionary (foldInserts (foldInserts dE b) a))) ∧
    valueLookup (.dictionary (foldInserts (foldInserts dE b) a)) k = some va ∧
    (∀ k2 v2, plookup k2 a = some v2 → plookup k2 b = none →
      valueLookup (.dictionary (foldInserts (foldInserts dE a) b)) k2 = some v2 ∧
      valueLookup (.dictionary (foldInserts (foldInserts dE b) a)) k2 = some v2) := by
  refine ⟨rfl, ?_, rfl, ?_, ?_⟩
  · show plookup k (foldInserts (foldInserts dE a) b) = some vb
    rw [plookup_foldInserts b (foldInserts dE a) k hndb, hkb]
  · show plookup k (foldInserts (foldInserts dE b) a) = some va
    rw [plookup_foldInserts a (foldInserts dE b) k hnda, hka]
  · intro k2 v2 ha2 hb2
    constructor
    · show plookup k2 (foldInserts (foldInserts dE a) b) = some v2
      rw [plookup_foldInserts b (foldInserts dE a) k2 hndb, hb2,
        plookup_foldInserts a dE k2 hnda, ha2]
    · show plookup k2 (foldInserts (foldInserts dE b) a) = some v2
      rw [plookup_foldInserts a (foldInserts dE b) k2 hnda, ha2]

/-- Witness for C4: sources setting k to A and to B over a destination
setting k to D, in both orders, plus a key x set only by one source. -/
theorem merge_plist_order_sensitive_witness :
    merge_plist [some (.dictionary [("k", .string "A"), ("x", .integer 1)]),
        some (.dictionary [("k", .string "B")])]
      (.ok (.dictionary [("k", .string "D")])) =
      .ok (some (.dictionary (foldInserts
        (foldInserts [("k", .string "D")] [("k", .string "A"), ("x", .integer 1)])
        [("k", .string "B")]))) ∧
    valueLookup (.dictionary (foldInserts
        (foldInserts [("k", .string "D")] [("k", .string "A"), ("x", .integer 1)])
        [("k", .string "B")])) "k" = some (.string "B") ∧
    merge_plist [some (.dictionary [("k", .string "B")]),
        some (.dictionary [("k", .string "A"), ("x", .integer 1)])]
      (.ok (.dictionary [("k", .string "D")])) =
      .ok (some (.dictionary (foldInserts
        (foldInserts [("k", .string "D")] [("k", .string "B")])
        [("k", .string "A"), ("x", .integer 1)]))) ∧
    valueLookup (.dictionary (foldInserts
        (foldInserts [("k", .string "D")] [("k", .string "B")])
        [("k", .string "A"), ("x", .integer 1)])) "k" = some (.string "A") ∧
    valueLookup (.dictionary (foldInserts
        (foldInserts [("k", .string "D")] [("k", .string "A"), ("x", .integer 1)])
        [("k", .string "B")])) "x" = some (.integer 1) ∧
    valueLookup (.dictionary (foldInserts
        (foldInserts [("k", .string "D")] [("k", .string "B")])
        [("k", .string "A"), ("x", .integer 1)])) "x" = some (.integer 1) := by
  have h := merge_plist_order_sensitive [("k", .string "D")]
    [("k", .string "A"), ("x", .integer 1)] [("k", .string "B")]
    "k" (.string "A") (.string "B") (by decide) (by decide) rfl rfl
  have hx := h.2.2.2.2 "x" (.integer 1) rfl rfl
  exact ⟨h.1, h.2.1, h.2.2.1, h.2.2.2.1, hx.1, hx.2⟩

theorem merge_plist_skip_lemma :
    ∀ (srcs : List (Option Value)) (destLoad : Except String Value),
      (∀ s ∈ srcs, s = none) → merge_plist srcs destLoad = .ok none
  | [], _, _ => rfl
  | s :: rest, dl, h => by
      have hs : s = none := h s (List.mem_cons_self s rest)
      subst hs
      show merge_sources rest dl none = .ok none
      exact merge_plist_skip_lemma rest dl (fun x hx => h x (List.mem_cons_of_mem none hx))

theorem merge_plist_written_lemma :
    ∀ (srcs : List (Option Value)) (destLoad : Except String Value) (c : Value),
      merge_plist srcs destLoad = .ok (some c) → ∃ v, some v ∈ srcs
  | [], _, c, h => Option.noConfusion (Except.ok.inj h)
  | none :: rest, dl, c, h => by
      rcases merge_plist_written_lemma rest dl c h with ⟨v, hv⟩
      exact ⟨v, List.mem_cons_of_mem none hv⟩
  | some w :: rest, _, _, _ => ⟨w, List.mem_cons_self _ _⟩

/-- C5 (confirmed): when every source is skipped (including the empty source
list), merge_plist returns success with the destination untouched: the result
is ok none — the modelled no-write outcome — for EVERY destination load
result, even a failing one, which shows the destination file is never read;
and conversely a written destination (an ok some result) implies at least one
source loaded. -/
theorem merge_plist_all_skipped_untouched (srcs : List (Option Value))
    (destLoad : Except String Value) :
    ((∀ s ∈ srcs, s = none) → merge_plist srcs destLoad = .ok none) ∧
    (∀ c, merge_plist srcs destLoad = .ok (some c) → ∃ v, some v ∈ srcs) :=
  ⟨merge_plist_skip_lemma srcs destLoad,
   fun c h => merge_plist_written_lemma srcs destLoad c h⟩

/-- Witness for C5: two unreadable sources over an unreadable destination
still return success without touching the destination. -/
theorem merge_plist_all_skipped_untouched_witness :
    merge_plist [none, none] (.error "destination unreadable") = .ok none :=
  (merge_plist_all_skipped_untouched [none, none] (.error "destination unreadable")).1
    (by
      intro s hs
      rcases List.mem_cons.mp hs with h | h
      · exact h
      · exact List.mem_singleton.mp h)

theorem merge_sources_loaded :
    ∀ (srcs : List (Option Value)) (destLoad : Except String Value) (c : Value),
      merge_sources srcs destLoad (some c) = .ok (some (foldLoaded srcs c))
  | [], _, _ => rfl
  | none :: rest, dl, c => by
      show merge_sources rest dl (some c) = .ok (some (foldLoaded (none :: rest) c))
      rw [merge_sources_loaded rest dl c]
      rfl
  | some w :: rest, dl, c => by
      show merge_sources rest dl (some (mergeOne c w)) =
        .ok (some (foldLoaded (some w :: rest) c))
      rw [merge_sources_loaded rest dl (mergeOne c w)]
      rfl

theorem mergeOne_eq_of_nondict_dest {d : Value} (h : ∀ e, d ≠ .dictionary e)
    (w : Value) : mergeOne d w = d := by
  cases d with
  | dictionary e => exact absurd rfl (h e)
  | string s => rfl
  | integer n => rfl
  | boolean b => rfl

theorem mergeOne_eq_of_nondict_src {w : Value} (h : ∀ e, w ≠ .dictionary e)
    (d : Value) : mergeOne d w = d := by
  cases d with
  | dictionary e =>
      cases w with
      | dictionary e2 => exact absurd rfl (h e2)
      | string s => rfl
      | integer n => rfl
      | boolean b => rfl
  | string s => rfl
  | integer n => rfl
  | boolean b => rfl

theorem foldLoaded_eq_of_nondict_dest :
    ∀ (srcs : List (Option Value)) (d : Value), (∀ e, d ≠ .dictionary e) →
      foldLoaded srcs d = d
  | [], _, _ => rfl
  | none :: rest, d, h => by
      show foldLoaded rest d = d
      exact foldLoaded_eq_of_nondict_dest rest d h
  | some w :: rest, d, h => by
      show foldLoaded rest (mergeOne d w) = d
      rw [mergeOne_eq_of_nondict_dest h w]
      exact foldLoaded_eq_of_nondict_dest rest d h

theorem foldLoaded_eq_of_nondict_srcs :
    ∀ (srcs : List (Option Value)) (d : Value),
      (∀ w, some w ∈ srcs → ∀ e, w ≠ .dictionary e) → foldLoaded srcs d = d
  | [], _, _ => rfl
  | none :: rest, d, h => by
      show foldLoaded rest d = d
      exact foldLoaded_eq_of_nondict_srcs rest d
        (fun w hw => h w (List.mem_cons_of_mem none hw))
  | some w :: rest, d, h => by
      show foldLoaded rest (mergeOne d w) = d
      rw [mergeOne_eq_of_nondict_src (h w (List.mem_cons_self _ _)) d]
      exact foldLoaded_eq_of_nondict_srcs rest d
        (fun w2 hw => h w2 (List.mem_cons_of_mem _ hw))

theorem merge_plist_ok_dest :
    ∀ (srcs : List (Option Value)) (d v : Value), some v ∈ srcs →
      merge_plist srcs (.ok d) = .ok (some (foldLoaded srcs d))
  | [], _, v, h => absurd h (List.not_mem_nil _)
  | none :: rest, d, v, h => by
      have hv : some v ∈ rest := by
        rcases List.mem_cons.mp h with h1 | h2
        · exact Option.noConfusion h1
        · exact h2
      show merge_sources rest (.ok d) none = .ok (some (foldLoaded (none :: rest) d))
      exact merge_plist_ok_dest rest d v hv
  | some w :: rest, d, v, _ => by
      show merge_sources rest (.ok d) (some (mergeOne d w)) =
        .ok (some (foldLoaded (some w :: rest) d))
      rw [merge_sources_loaded rest (.ok d) (mergeOne d w)]
      rfl

/-- C10 (confirmed): once at least one source loads and the destination
loads, merge_plist always ends in the written state (ok some), and when no
key is actually inserted — because the destination top-level value is not a
dictionary, or every loaded source top-level value is not a dictionary — the
destination is still rewritten, with its own content unchanged and all source
content discarded. -/
theorem merge_plist_writes_after_first_load (srcs : List (Option Value)) (d v : Value)
    (hmem : some v ∈ srcs) :
    merge_plist srcs (.ok d) = .ok (some (foldLoaded srcs d)) ∧
    ((∀ e, d ≠ .dictionary e) → merge_plist srcs (.ok d) = .ok (some d)) ∧
    ((∀ w, some w ∈ srcs → ∀ e, w ≠ .dictionary e) →
      merge_plist srcs (.ok d) = .ok (some d)) := by
  have h1 := merge_plist_ok_dest srcs d v hmem
  refine ⟨h1, ?_, ?_⟩
  · intro hd
    rw [h1, foldLoaded_eq_of_nondict_dest srcs d hd]
  · intro hsrcs
    rw [h1, foldLoaded_eq_of_nondict_srcs srcs d hsrcs]

/-- Witness for C10: one loaded non-dictionary source over a non-dictionary
destination: the destination is rewritten with its own content. -/
theorem merge_plist_writes_after_first_load_witness :
    merge_plist [some (.string "SRC")] (.ok (.string "DEST")) =
      .ok (some (.string "DEST")) :=
  (merge_plist_writes_after_first_load [some (.string "SRC")] (.string "DEST")
      (.string "SRC") (List.mem_singleton_self _)).2.1
    (fun _ h => Value.noConfusion h)

end TauriIos
